import Mathlib

/-!
Verification of the pfsense-container-controller reconciliation engine.

The Go sources are embedded shallowly: pure helper functions become Lean
functions on `String` / `List Char`, the label maps become association
lists (Go map iteration order is modelled by list order), the retry loop
becomes a fuelled recursion, and the reconciler's remote calls become an
explicit call trace interpreted over a remote-state model.
-/

namespace PfCtl

/-! ## Name sanitization (internal/controller/controller.go, sanitizeName) -/

/-- Characters kept by the first regex `[^a-zA-Z0-9\-_]` in `sanitizeName`:
ASCII letters, digits, hyphen and underscore. -/
def isAllowedChar (c : Char) : Bool :=
  ('a' ≤ c && c ≤ 'z') || ('A' ≤ c && c ≤ 'Z') || ('0' ≤ c && c ≤ '9') ||
    c == '-' || c == '_'

/-- First step of `sanitizeName`: replace every disallowed character with a
hyphen (`reg.ReplaceAllString(name, "-")`). -/
def sanitizeStep1 (l : List Char) : List Char :=
  l.map (fun c => if isAllowedChar c then c else '-')

/-- Second step of `sanitizeName`: collapse each run of consecutive hyphens
to a single hyphen (`reg2.ReplaceAllString(sanitized, "-")` with `-+`). -/
def collapseDashes : List Char → List Char
  | [] => []
  | [c] => [c]
  | c1 :: c2 :: rest =>
    if c1 = '-' ∧ c2 = '-' then collapseDashes (c2 :: rest)
    else c1 :: collapseDashes (c2 :: rest)

/-- Left half of `strings.Trim(sanitized, "-")`. -/
def trimLeadDashes (l : List Char) : List Char :=
  l.dropWhile (· == '-')

/-- `strings.Trim(sanitized, "-")`: drop leading and trailing hyphens. -/
def trimDashes (l : List Char) : List Char :=
  ((trimLeadDashes l).reverse.dropWhile (· == '-')).reverse

/-- Composition of the three steps of the Go `sanitizeName`. -/
def sanitizeList (l : List Char) : List Char :=
  trimDashes (collapseDashes (sanitizeStep1 l))

/-- `sanitizeName` from internal/controller/controller.go. -/
def sanitizeName (s : String) : String :=
  ⟨sanitizeList s.data⟩

/-- Adjacent characters with no double hyphen. -/
def noDD (a b : Char) : Prop := ¬(a = '-' ∧ b = '-')

/-! ## Rule expression parser (internal/labels/haproxy_parser.go, parseRule)

Each regex has the deterministic shape
`Name( \s* BTICK [^BTICK]+ BTICK \s* )`, matched unanchored (leftmost
occurrence), exactly as Go's `FindStringSubmatch` behaves on these patterns:
the `\s*` runs are bounded by a non-space character and `[^BTICK]+` by a
backtick, so greedy matching is forced and position-by-position search
suffices. -/

/-- The backtick delimiter character of the rule grammar. -/
def btick : Char := '\x60'

/-- Go regexp `\s`: `[\t\n\f\r ]`. -/
def isSpaceGo (c : Char) : Bool :=
  c == ' ' || c == '\t' || c == '\n' || c == '\r' || c == '\x0c'

/-- Strip an expected literal from the front of a character list. -/
def stripPfx : List Char → List Char → Option (List Char)
  | [], l => some l
  | _ :: _, [] => none
  | p :: ps, c :: cs => if p = c then stripPfx ps cs else none

/-- Match `name( \s* BTICK value BTICK \s* )` at the start of `l`,
returning the non-empty backtick-free `value`. -/
def matchFuncAt (name : List Char) (l : List Char) : Option (List Char) :=
  match stripPfx (name ++ ['(']) l with
  | none => none
  | some r1 =>
    match stripPfx [btick] (r1.dropWhile isSpaceGo) with
    | none => none
    | some r3 =>
      let v := r3.takeWhile (fun c => c != btick)
      if v = [] then none
      else
        match stripPfx [btick] (r3.dropWhile (fun c => c != btick)) with
        | none => none
        | some r5 =>
          match stripPfx [')'] (r5.dropWhile isSpaceGo) with
          | none => none
          | some _ => some v

/-- Leftmost occurrence search, as Go's unanchored `FindStringSubmatch`. -/
def findRule (name : List Char) : List Char → Option (List Char)
  | [] => none
  | c :: t =>
    match matchFuncAt name (c :: t) with
    | some v => some v
    | none => findRule name t

/-- `parseRule` from internal/labels/haproxy_parser.go: try the Host,
PathPrefix and Path patterns in this order; no match is the
"unsupported rule format" error. -/
def parseRule (rule : List Char) : Except (List Char) (List Char × List Char) :=
  match findRule "Host".data rule with
  | some v => .ok ("host_matches".data, v)
  | none =>
    match findRule "PathPrefix".data rule with
    | some v => .ok ("path_beg".data, v)
    | none =>
      match findRule "Path".data rule with
      | some v => .ok ("path".data, v)
      | none => .error ("unsupported rule format: ".data ++ rule)

/-! ## Container metadata and label access (internal/labels/parser.go,
internal/container) -/

/-- A container's label map, modelled as an association list with the keys
unique; lookups take the first matching key. -/
abbrev Labels := List (String × String)

/-- Go map read `labels[key]` with presence flag. -/
def getLabel (labels : Labels) (key : String) : Option String :=
  (labels.find? (fun p => p.1 == key)).map (·.2)

/-- `getStringLabel` from internal/labels/parser.go. -/
def getStringLabel (labels : Labels) (key defaultValue : String) : String :=
  (getLabel labels key).getD defaultValue

def ControllerEnableLabel : String := "pfsense-controller.enable"

def ControllerEndpointLabel : String := "pfsense-controller.endpoint"

def ControllerBackendNameLabel : String := "pfsense-controller.backend.name"

def ControllerBackendPortLabel : String := "pfsense-controller.backend.port"

def ControllerBackendHealthCheckLabel : String :=
  "pfsense-controller.backend.health_check_path"

def ControllerBackendHealthMethodLabel : String :=
  "pfsense-controller.backend.health_check_method"

def ControllerBackendCheckTypeLabel : String :=
  "pfsense-controller.backend.check_type"

def ControllerBackendServerNameLabel : String :=
  "pfsense-controller.backend.server_name"

def ControllerFrontendNameLabel : String := "pfsense-controller.frontend.name"

def ControllerFrontendRuleLabel : String := "pfsense-controller.frontend.rule"

def ControllerFrontendACLNameLabel : String :=
  "pfsense-controller.frontend.acl_name"

def TraefikEnableLabel : String := "traefik.enable"

def TrueValue : String := "true"

/-- Go `strings.ToLower`, for the ASCII strings in play (Lean's
`Char.toLower` lowercases exactly the ASCII uppercase letters).  Defined by
structural recursion over the character list. -/
def toLowerStr (s : String) : String :=
  ⟨s.data.map Char.toLower⟩

/-- `container.Info`, restricted to the fields the parser reads: the
container name and the network map (network name to IP address). -/
structure ContainerInfo where
  name : String
  networks : List (String × String)
deriving Repr, DecidableEq

/-- `GetContainerIP` from the container package: the first network entry
with a non-empty IP address (map iteration modelled by list order). -/
def GetContainerIP (info : ContainerInfo) : String :=
  match info.networks.find? (fun p => p.2 != "") with
  | some p => p.2
  | none => ""

/-- `BackendConfig` from internal/labels/parser.go. -/
structure BackendConfig where
  name : String := ""
  serverName : String := ""
  port : String := ""
  address : String := ""
  checkType : String := ""
  healthCheckPath : String := ""
  healthCheckMethod : String := ""
  healthCheckVersion : String := ""
  backendPassThru : String := ""
deriving Repr, DecidableEq

/-- `FrontendConfig` from internal/labels/parser.go. -/
structure FrontendConfig where
  name : String := ""
  rule : String := ""
  aclName : String := ""
deriving Repr, DecidableEq

/-- `ContainerConfig` from internal/labels/parser.go. -/
structure ContainerConfig where
  backendConfig : BackendConfig
  frontendConfig : FrontendConfig
  endpointName : String := ""
  parseMode : String := ""
  enabled : Bool := false
deriving Repr, DecidableEq

/-- Go `strconv.Atoi`: optional sign, one or more ASCII digits, value within
the signed 64-bit range; anything else is an error (`none`). -/
def goAtoi? (s : String) : Option Int :=
  let (sign, ds) : Int × List Char :=
    match s.data with
    | c :: t => if c = '-' then (-1, t) else if c = '+' then (1, t) else (1, s.data)
    | [] => (1, [])
  if ds.isEmpty then none
  else if ds.all Char.isDigit then
    let n : Nat := ds.foldl (fun a c => a * 10 + (c.toNat - 48)) 0
    let v : Int := sign * n
    if v < -(2 ^ 63) ∨ 2 ^ 63 ≤ v then none else some v
  else none

/-- `generateNameFromRule` from internal/labels/parser.go. -/
def generateNameFromRule (rule : String) : String :=
  match parseRule rule.data with
  | .ok (expression, value) =>
    if expression = "host_matches".data then sanitizeName ⟨value⟩
    else if expression = "path_beg".data ∨ expression = "path".data then
      sanitizeName ⟨value.map (fun c => if c = '/' then '-' else c)⟩
    else sanitizeName rule
  | .error _ => sanitizeName rule

/-- `configureHealthCheck` from internal/labels/haproxy_parser.go.
The Go switch is on `strings.ToLower(config.CheckType)`; the label values
in play are ASCII, for which `toLowerStr` agrees with Go. -/
def configureHealthCheck (cfg : BackendConfig) (labels : Labels) :
    Except String BackendConfig :=
  if toLowerStr cfg.checkType = "none" then
    .ok { cfg with healthCheckPath := "", healthCheckMethod := "", healthCheckVersion := "" }
  else if toLowerStr cfg.checkType = "basic" then
    .ok { cfg with healthCheckPath := "", healthCheckMethod := "", healthCheckVersion := "" }
  else if toLowerStr cfg.checkType = "http" then
    let path := getStringLabel labels ControllerBackendHealthCheckLabel ""
    if path = "" then
      .error "health check path is required for HTTP check type (pfsense-controller.backend.health_check_path)"
    else
      .ok { cfg with
        healthCheckPath := path,
        healthCheckMethod := getStringLabel labels ControllerBackendHealthMethodLabel "OPTIONS",
        healthCheckVersion := "HTTP/1.1\\r\\nHost:\\ " ++ cfg.address }
  else
    .error ("invalid check type \x27" ++ cfg.checkType ++ "\x27, must be one of: none, basic, http")

/-- `parseControllerBackendConfig` from internal/labels/haproxy_parser.go. -/
def parseControllerBackendConfig (info : ContainerInfo) (labels : Labels) :
    Except String BackendConfig :=
  let name0 := getStringLabel labels ControllerBackendNameLabel ""
  let name := if name0 = "" then sanitizeName info.name ++ "-backend" else name0
  let serverName := getStringLabel labels ControllerBackendServerNameLabel (sanitizeName info.name)
  let port := getStringLabel labels ControllerBackendPortLabel ""
  if port = "" then .error "backend port is required"
  else if (goAtoi? port).isNone then .error ("invalid backend port: " ++ port)
  else
    let address := GetContainerIP info
    if address = "" then .error "could not determine container IP address"
    else
      let checkType := getStringLabel labels ControllerBackendCheckTypeLabel "basic"
      match configureHealthCheck
          { name := name, serverName := serverName, port := port,
            address := address, checkType := checkType } labels with
      | .error e => .error ("failed to configure health check: " ++ e)
      | .ok cfg => .ok { cfg with backendPassThru := "http-request set-header Host " ++ address }

/-- `parseControllerFrontendConfig` from internal/labels/haproxy_parser.go. -/
def parseControllerFrontendConfig (labels : Labels) : Except String FrontendConfig :=
  let name0 := getStringLabel labels ControllerFrontendNameLabel ""
  let rule := getStringLabel labels ControllerFrontendRuleLabel ""
  if rule = "" then .error "frontend rule is required"
  else
    let acl0 := getStringLabel labels ControllerFrontendACLNameLabel ""
    let name := if name0 = "" then "auto-frontend-" ++ generateNameFromRule rule else name0
    let aclName := if acl0 = "" then "auto-acl-" ++ generateNameFromRule rule else acl0
    .ok { name := name, rule := rule, aclName := aclName }

/-- `validateRequiredLabels` from internal/labels/haproxy_parser.go. -/
def validateRequiredLabels (labels : Labels) : Except String Unit :=
  if getStringLabel labels ControllerBackendPortLabel "" = "" then
    .error "backend port is required (pfsense-controller.backend.port)"
  else if getStringLabel labels ControllerFrontendRuleLabel "" = "" then
    .error "frontend rule is required (pfsense-controller.frontend.rule)"
  else .ok ()

/-- `validateConfig` from internal/labels/haproxy_parser.go. Note that the
frontend rule is only checked to be non-empty; it is not parsed here. -/
def validateConfig (config : ContainerConfig) : Except String Unit :=
  if config.backendConfig.name = "" then .error "backend name cannot be empty"
  else if config.backendConfig.port = "" then .error "backend port cannot be empty"
  else if config.backendConfig.address = "" then .error "backend address cannot be empty"
  else if config.frontendConfig.rule = "" then .error "frontend rule cannot be empty"
  else if config.backendConfig.checkType = "http" ∧ config.backendConfig.healthCheckPath = "" then
    .error "health check path is required for HTTP check type"
  else .ok ()

/-- `parseControllerLabels` from internal/labels/haproxy_parser.go. -/
def parseControllerLabels (info : ContainerInfo) (labels : Labels) :
    Except String ContainerConfig :=
  if ¬ (getLabel labels ControllerEnableLabel = some TrueValue) then
    .error "controller not enabled for container"
  else
    match validateRequiredLabels labels with
    | .error e => .error ("missing required labels: " ++ e)
    | .ok _ =>
      let endpointName := getStringLabel labels ControllerEndpointLabel "default"
      match parseControllerBackendConfig info labels with
      | .error e => .error ("failed to parse backend config: " ++ e)
      | .ok bc =>
        match parseControllerFrontendConfig labels with
        | .error e => .error ("failed to parse frontend config: " ++ e)
        | .ok fc =>
          let config : ContainerConfig :=
            { backendConfig := bc, frontendConfig := fc,
              endpointName := endpointName, enabled := true }
          match validateConfig config with
          | .error e => .error ("configuration validation failed: " ++ e)
          | .ok _ => .ok config

/-- `strings.Contains`: does `pat` occur as a contiguous run in `l`? -/
def containsSub (pat : List Char) : List Char → Bool
  | [] => List.isPrefixOf pat []
  | c :: t => List.isPrefixOf pat (c :: t) || containsSub pat t

/-- The Traefik service-port key pattern of `parseTraefikBackendConfig`:
contains `.http.services.` and ends with `.loadbalancer.server.port`. -/
def isTraefikPortKey (key : String) : Bool :=
  containsSub ".http.services.".data key.data &&
    List.isSuffixOf ".loadbalancer.server.port".data key.data

/-- The label scan of `parseTraefikBackendConfig` (Go iterates the map and
breaks at the first match; iteration order is modelled by list order). -/
def findTraefikPortEntry (labels : Labels) : Option (String × String) :=
  labels.find? (fun p => isTraefikPortKey p.1)

/-- `parseTraefikBackendConfig` from internal/labels/haproxy_parser.go. -/
def parseTraefikBackendConfig (info : ContainerInfo) (labels : Labels) :
    Except String BackendConfig :=
  let baseName := sanitizeName info.name ++ "-backend"
  let serverName := sanitizeName info.name
  let found := findTraefikPortEntry labels
  let servicePort := match found with
    | some p => p.2
    | none => ""
  let serviceName := match found with
    | some p =>
      let parts := p.1.data.splitOn '.'
      if 4 ≤ parts.length then (⟨parts.getD 3 []⟩ : String) else ""
    | none => ""
  if servicePort = "" then .error "no service port found in traefik labels"
  else if (goAtoi? servicePort).isNone then
    .error ("invalid traefik service port: " ++ servicePort)
  else
    let address := GetContainerIP info
    if address = "" then .error "could not determine container IP address"
    else
      let name := if serviceName ≠ "" then sanitizeName serviceName ++ "-backend" else baseName
      let checkType := getStringLabel labels ControllerBackendCheckTypeLabel "basic"
      match configureHealthCheck
          { name := name, serverName := serverName, port := servicePort,
            address := address, checkType := checkType } labels with
      | .error e => .error ("failed to configure health check: " ++ e)
      | .ok cfg => .ok { cfg with backendPassThru := "http-request set-header Host " ++ address }

/-- `validateTraefikRequiredLabels` from internal/labels/haproxy_parser.go. -/
def validateTraefikRequiredLabels (labels : Labels) : Except String Unit :=
  if (findTraefikPortEntry labels).isNone then
    .error "Traefik service port is required (traefik.http.services.\x7bservice\x7d.loadbalancer.server.port)"
  else if getStringLabel labels ControllerFrontendRuleLabel "" = "" then
    .error "frontend rule is required (pfsense-controller.frontend.rule)"
  else .ok ()

/-- `parseTraefikLabels` from internal/labels/haproxy_parser.go. -/
def parseTraefikLabels (info : ContainerInfo) (labels : Labels) :
    Except String ContainerConfig :=
  if ¬ (getLabel labels TraefikEnableLabel = some TrueValue) then
    .error "traefik not enabled for container"
  else
    match validateTraefikRequiredLabels labels with
    | .error e => .error ("missing required labels for Traefik mode: " ++ e)
    | .ok _ =>
      match parseTraefikBackendConfig info labels with
      | .error e => .error ("failed to parse traefik backend config: " ++ e)
      | .ok bc =>
        match parseControllerFrontendConfig labels with
        | .error e => .error ("failed to parse frontend config: " ++ e)
        | .ok fc =>
          let config : ContainerConfig :=
            { backendConfig := bc, frontendConfig := fc,
              endpointName := "default", enabled := true }
          match validateConfig config with
          | .error e => .error ("configuration validation failed: " ++ e)
          | .ok _ => .ok config

/-- `HAProxyParser.ParseContainer` from internal/labels/haproxy_parser.go:
controller mode first, then Traefik compatibility mode when enabled.
(The Go nil-labels guard has no distinct counterpart on association lists;
an absent map behaves as an empty one and fails the enable check.) -/
def ParseContainer (traefikCompatMode : Bool) (info : ContainerInfo) (labels : Labels) :
    Except String ContainerConfig :=
  match parseControllerLabels info labels with
  | .ok config => .ok { config with parseMode := "controller" }
  | .error _ =>
    if traefikCompatMode then
      match parseTraefikLabels info labels with
      | .ok config => .ok { config with parseMode := "traefik" }
      | .error _ => .error "no valid HAProxy labels found for container"
    else .error "no valid HAProxy labels found for container"

/-! ## Remote object shapes and desired-state builder
(internal/pfsense/client.go, internal/labels/haproxy_parser.go) -/

/-- UTF-8 encoding of one character (Go strings are UTF-8 byte sequences). -/
def utf8Bytes (c : Char) : List Nat :=
  let n := c.toNat
  if n < 128 then [n]
  else if n < 2048 then [192 + n / 64, 128 + n % 64]
  else if n < 65536 then [224 + n / 4096, 128 + n / 64 % 64, 128 + n % 64]
  else [240 + n / 262144, 128 + n / 4096 % 64, 128 + n / 64 % 64, 128 + n % 64]

/-- The bytes of a Go string. -/
def strBytes (s : String) : List Nat :=
  (s.data.map utf8Bytes).flatten

def b64Table : List Char :=
  "ABCDEFGHIJKLMNOPQRSTUVWXYZabcdefghijklmnopqrstuvwxyz0123456789+/".data

def b64c (n : Nat) : Char := b64Table.getD n 'A'

/-- Standard base64 with padding (`base64.StdEncoding.EncodeToString`). -/
def base64Encode : List Nat → List Char
  | [] => []
  | [a] => [b64c (a / 4), b64c (a % 4 * 16), '=', '=']
  | [a, b] => [b64c (a / 4), b64c (a % 4 * 16 + b / 16), b64c (b % 16 * 4), '=']
  | a :: b :: c :: rest =>
    b64c (a / 4) :: b64c (a % 4 * 16 + b / 16) :: b64c (b % 16 * 4 + c / 64) ::
      b64c (c % 64) :: base64Encode rest

def base64EncodeStr (s : String) : String :=
  ⟨base64Encode (strBytes s)⟩

/-- `HAProxyBackendServer` from internal/pfsense/client.go. -/
structure HAProxyBackendServer where
  name : String
  address : String
  port : String
deriving Repr, DecidableEq

/-- `HAProxyBackend` from internal/pfsense/client.go. -/
structure HAProxyBackend where
  name : String
  checkType : String := ""
  monitorURI : String := ""
  monitorHTTPVersion : String := ""
  advancedBackend : String := ""
  servers : List HAProxyBackendServer := []
  id : Int := 0
deriving Repr, DecidableEq

/-- `HAProxyACL` from internal/pfsense/client.go. -/
structure HAProxyACL where
  name : String
  expression : String
  value : String
  id : Int := 0
deriving Repr, DecidableEq

/-- `HAProxyAction` from internal/pfsense/client.go. -/
structure HAProxyAction where
  action : String
  acl : String
  backend : String
  id : Int := 0
deriving Repr, DecidableEq

/-- `HAProxyFrontend` from internal/pfsense/client.go. -/
structure HAProxyFrontend where
  name : String
  haACLs : List HAProxyACL := []
  actionItems : List HAProxyAction := []
  id : Int := 0
deriving Repr, DecidableEq

/-- `ConvertToHAProxyBackend` from internal/labels/haproxy_parser.go. -/
def ConvertToHAProxyBackend (config : ContainerConfig) : HAProxyBackend :=
  let backend : HAProxyBackend :=
    { name := config.backendConfig.name,
      servers := [{ name := config.backendConfig.serverName,
                    address := config.backendConfig.address,
                    port := config.backendConfig.port }],
      advancedBackend := base64EncodeStr config.backendConfig.backendPassThru }
  if toLowerStr config.backendConfig.checkType = "none" then
    { backend with checkType := "" }
  else if toLowerStr config.backendConfig.checkType = "basic" then
    { backend with checkType := "Basic" }
  else if toLowerStr config.backendConfig.checkType = "http" then
    { backend with checkType := "HTTP",
                   monitorURI := config.backendConfig.healthCheckPath,
                   monitorHTTPVersion := config.backendConfig.healthCheckVersion }
  else backend

/-- `ConvertToHAProxyFrontend` from internal/labels/haproxy_parser.go. -/
def ConvertToHAProxyFrontend (config : ContainerConfig) : Except String HAProxyFrontend :=
  match parseRule config.frontendConfig.rule.data with
  | .error e => .error ("failed to parse frontend rule: " ++ (⟨e⟩ : String))
  | .ok (expression, value) =>
    .ok { name := config.frontendConfig.name,
          haACLs := [{ name := config.frontendConfig.aclName,
                       expression := (⟨expression⟩ : String),
                       value := (⟨value⟩ : String) }],
          actionItems := [{ action := "use_backend",
                            acl := config.frontendConfig.aclName,
                            backend := config.backendConfig.name }] }

/-! ## Reconciler (internal/pfsense/client.go, Manager)

The remote pfSense instance is an external collaborator; the engine only
observes it through list/find calls and requests transitions.  `syncBackend`
and `syncFrontend` below produce the trace of API calls the Go manager
issues against a given observed remote state, assuming the calls succeed
(the retry wrapper invokes a succeeding operation exactly once; see the
retry model). -/

/-- The remote state observed through `GetHAProxyBackends` /
`GetHAProxyFrontends`. -/
structure RemoteState where
  backends : List HAProxyBackend := []
  frontends : List HAProxyFrontend := []
  nextId : Int := 1
deriving Repr, DecidableEq

/-- `FindBackendByName` from internal/pfsense/client.go: first backend in
the listing with the given name. -/
def FindBackendByName (s : RemoteState) (name : String) : Option HAProxyBackend :=
  s.backends.find? (fun b => b.name == name)

/-- `FindFrontendByName` from internal/pfsense/client.go. -/
def FindFrontendByName (s : RemoteState) (name : String) : Option HAProxyFrontend :=
  s.frontends.find? (fun f => f.name == name)

/-- One mutating request issued to the remote API. -/
inductive ApiCall where
  | createBackend (b : HAProxyBackend)
  | updateBackend (b : HAProxyBackend)
  | createFrontend (f : HAProxyFrontend)
  | addACL (parentId : Int) (acl : HAProxyACL)
  | addAction (parentId : Int) (act : HAProxyAction)
deriving Repr, DecidableEq

/-- `Manager.syncBackend` from internal/pfsense/client.go: create when the
name is absent remotely, otherwise update carrying the existing id. -/
def syncBackend (s : RemoteState) (config : ContainerConfig) : List ApiCall :=
  let desiredBackend := ConvertToHAProxyBackend config
  match FindBackendByName s desiredBackend.name with
  | none => [ApiCall.createBackend desiredBackend]
  | some existingBackend =>
    [ApiCall.updateBackend { desiredBackend with id := existingBackend.id }]

/-- `Manager.syncFrontend` from internal/pfsense/client.go: create when the
name is absent remotely, otherwise add the ACL and the action to the
existing frontend (`UpdateFrontendWithACLAndAction`, which POSTs the ACL
and then the action against the existing frontend's id). -/
def syncFrontend (s : RemoteState) (config : ContainerConfig) :
    Except String (List ApiCall) :=
  match ConvertToHAProxyFrontend config with
  | .error e => .error ("failed to convert to HAProxy frontend: " ++ e)
  | .ok desiredFrontend =>
    match FindFrontendByName s desiredFrontend.name with
    | none => .ok [ApiCall.createFrontend desiredFrontend]
    | some existingFrontend =>
      match desiredFrontend.haACLs, desiredFrontend.actionItems with
      | acl :: _, act :: _ =>
        .ok [ApiCall.addACL existingFrontend.id acl,
             ApiCall.addAction existingFrontend.id act]
      | _, _ => .error "missing ACL or action in frontend configuration"

/-- Modelled from the spec: the remote API's effect on its own state
(section 6 of the spec; the server itself is not part of this repository).
Create assigns a fresh identifier and appends; update-by-id replaces the
fields of the identified backend; the ACL/action sub-resource POSTs append
one entry to the identified frontend's rule/action lists. -/
def applyCall (s : RemoteState) : ApiCall → RemoteState
  | .createBackend b =>
    { s with backends := s.backends ++ [{ b with id := s.nextId }],
             nextId := s.nextId + 1 }
  | .updateBackend b =>
    { s with backends := s.backends.map (fun x => if x.id == b.id then b else x) }
  | .createFrontend f =>
    { s with frontends := s.frontends ++ [{ f with id := s.nextId }],
             nextId := s.nextId + 1 }
  | .addACL pid acl =>
    { s with frontends :=
        s.frontends.map (fun f => if f.id == pid then { f with haACLs := f.haACLs ++ [acl] } else f) }
  | .addAction pid act =>
    { s with frontends :=
        s.frontends.map (fun f => if f.id == pid then { f with actionItems := f.actionItems ++ [act] } else f) }

def applyCalls (s : RemoteState) (calls : List ApiCall) : RemoteState :=
  calls.foldl applyCall s

/-! ## Retry wrapper (internal/pfsense/client.go, Manager.retryOperation) -/

/-- Observable outcome of `Manager.retryOperation`: whether it returned nil,
how many times the operation closure was invoked, the sequence of sleeps
performed (in time units of the base delay times the given `d`), and the
`lastErr` the final error wraps (when it returned an error). -/
structure RetryResult (E : Type) where
  success : Bool
  calls : Nat
  sleeps : List Nat
  lastErr : Option E
deriving Repr, DecidableEq

/-- The loop of `Manager.retryOperation`; `op k` is the outcome of the
`k`-th (0-indexed) invocation of the operation closure, `none` meaning
success.  `n` is `RetryAttempts`, `d` the base `RetryDelay`. -/
def retryAux {E : Type} (op : Nat → Option E) (n d : Nat) (attempt : Nat)
    (lastErr : Option E) (sleeps : List Nat) : RetryResult E :=
  if h : attempt < n then
    let sleeps' := if 0 < attempt then sleeps ++ [attempt * d] else sleeps
    match op attempt with
    | none => { success := true, calls := attempt + 1, sleeps := sleeps', lastErr := none }
    | some e => retryAux op n d (attempt + 1) (some e) sleeps'
  else
    { success := false, calls := attempt, sleeps := sleeps, lastErr := lastErr }
termination_by n - attempt
decreasing_by omega

/-- `Manager.retryOperation` from internal/pfsense/client.go. -/
def retryOperation {E : Type} (op : Nat → Option E) (n d : Nat) : RetryResult E :=
  retryAux op n d 0 none []

/-- Whether an `Except` value is a success (Go: `err == nil`). -/
def isOkE {ε α : Type} : Except ε α → Bool
  | .ok _ => true
  | .error _ => false

/-- The container of the repository's parser tests: name `test-service`,
one network with IP `172.17.0.2`. -/
def exInfo : ContainerInfo := ⟨"test-service", [("default", "172.17.0.2")]⟩

/-- Traefik-mode labels of the repository's parser tests, plus an explicit
endpoint label that compatibility mode will ignore. -/
def exTraefikLabels : Labels :=
  [(TraefikEnableLabel, "true"),
   ("traefik.http.services.test-service.loadbalancer.server.port", "8080"),
   (ControllerFrontendRuleLabel, "Host(`test.example.com`)"),
   (ControllerEndpointLabel, "staging")]

/-- Controller-mode labels whose frontend rule is not parsable by the rule
grammar. -/
def exBadRuleLabels : Labels :=
  [(ControllerEnableLabel, "true"), (ControllerBackendPortLabel, "80"),
   (ControllerFrontendRuleLabel, "NotARule")]

/-! ## Theorems: sanitization -/

theorem collapseDashes_head? : ∀ (xs : List Char) (x : Char),
    (collapseDashes (x :: xs)).head? = some x := by
  intro xs
  induction xs with
  | nil => intro x; rfl
  | cons y r ih =>
    intro x
    by_cases h : x = '-' ∧ y = '-'
    · rw [collapseDashes, if_pos h, ih y, h.1, h.2]
    · rw [collapseDashes, if_neg h]
      rfl

theorem chain'_collapseDashes : ∀ l : List Char, List.Chain' noDD (collapseDashes l) := by
  intro l
  induction l with
  | nil => exact List.chain'_nil
  | cons c1 t ih =>
    cases t with
    | nil => exact List.chain'_singleton c1
    | cons c2 rest =>
      by_cases h : c1 = '-' ∧ c2 = '-'
      · rw [collapseDashes, if_pos h]
        exact ih
      · rw [collapseDashes, if_neg h]
        refine List.chain'_cons'.2 ⟨?_, ih⟩
        intro y hy
        rw [collapseDashes_head? rest c2] at hy
        cases hy
        exact h

theorem collapseDashes_eq_self : ∀ l : List Char, List.Chain' noDD l →
    collapseDashes l = l := by
  intro l
  induction l with
  | nil => intro _; rfl
  | cons c1 t ih =>
    cases t with
    | nil => intro _; rfl
    | cons c2 rest =>
      intro h
      rcases List.chain'_cons.1 h with ⟨h12, htail⟩
      rw [collapseDashes, if_neg h12, ih htail]

theorem mem_collapseDashes : ∀ l : List Char, ∀ c ∈ collapseDashes l, c ∈ l := by
  intro l
  induction l with
  | nil => intro c hc; exact absurd hc (by simp [collapseDashes])
  | cons c1 t ih =>
    cases t with
    | nil => intro c hc; exact hc
    | cons c2 rest =>
      intro c hc
      by_cases h : c1 = '-' ∧ c2 = '-'
      · rw [collapseDashes, if_pos h] at hc
        exact List.mem_cons_of_mem c1 (ih c hc)
      · rw [collapseDashes, if_neg h] at hc
        rcases List.mem_cons.1 hc with h1 | h2
        · exact h1 ▸ List.mem_cons_self c1 _
        · exact List.mem_cons_of_mem c1 (ih c h2)

theorem map_fix_eq_self {f : Char → Char} : ∀ l : List Char,
    (∀ c ∈ l, f c = c) → l.map f = l := by
  intro l
  induction l with
  | nil => intro _; rfl
  | cons c t ih =>
    intro h
    rw [List.map_cons, h c (List.mem_cons_self c t),
      ih (fun x hx => h x (List.mem_cons_of_mem c hx))]

theorem dropWhile_eq_self_of_head? {p : Char → Bool} {l : List Char}
    (h : ∀ c, l.head? = some c → p c = false) : l.dropWhile p = l := by
  cases l with
  | nil => rfl
  | cons c t =>
    rw [List.dropWhile_cons, h c rfl]
    simp

theorem head?_dropWhile_ne {p : Char → Bool} {l : List Char} {c : Char}
    (h : (l.dropWhile p).head? = some c) : p c = false := by
  have hh := List.head?_dropWhile_not p l
  rw [h] at hh
  exact hh

theorem head?_of_pfx {l' t m : List Char} (h : l' ++ t = m) {c : Char}
    (hc : l'.head? = some c) : m.head? = some c := by
  subst h
  cases l' with
  | nil => cases hc
  | cons a r => cases hc; rfl

theorem chain'_reverse_noDD {l : List Char} (h : List.Chain' noDD l) :
    List.Chain' noDD l.reverse := by
  have h1 : List.Chain' (flip noDD) l :=
    h.imp (fun _ _ hab hba => hab ⟨hba.2, hba.1⟩)
  exact List.chain'_reverse.mpr h1

/-- All characters in the output of `sanitizeList` are in the allowed
alphabet (letters, digits, hyphen, underscore). -/
theorem sanitizeList_chars : ∀ l : List Char, ∀ c ∈ sanitizeList l,
    isAllowedChar c = true := by
  intro l c hc
  unfold sanitizeList trimDashes trimLeadDashes at hc
  rw [List.mem_reverse] at hc
  have h1 := (List.dropWhile_suffix (· == '-')).subset hc
  rw [List.mem_reverse] at h1
  have h2 := (List.dropWhile_suffix (· == '-')).subset h1
  have h3 := mem_collapseDashes _ c h2
  unfold sanitizeStep1 at h3
  rcases List.mem_map.1 h3 with ⟨a, _, ha⟩
  by_cases hall : isAllowedChar a
  · rw [if_pos hall] at ha
    exact ha ▸ hall
  · rw [if_neg hall] at ha
    rw [← ha]
    rfl

theorem chain'_sanitizeList (l : List Char) : List.Chain' noDD (sanitizeList l) := by
  unfold sanitizeList trimDashes trimLeadDashes
  have h1 := chain'_collapseDashes (sanitizeStep1 l)
  have h2 : List.Chain' noDD ((collapseDashes (sanitizeStep1 l)).dropWhile (· == '-')) :=
    h1.suffix (List.dropWhile_suffix _)
  have h3 := chain'_reverse_noDD h2
  have h4 : List.Chain' noDD
      (((collapseDashes (sanitizeStep1 l)).dropWhile (· == '-')).reverse.dropWhile (· == '-')) :=
    h3.suffix (List.dropWhile_suffix _)
  exact chain'_reverse_noDD h4

theorem head?_sanitizeList (l : List Char) :
    (sanitizeList l).head? ≠ some '-' := by
  intro h
  unfold sanitizeList trimDashes trimLeadDashes at h
  obtain ⟨t, ht⟩ := List.dropWhile_suffix (p := (· == '-'))
      (l := (List.dropWhile (· == '-') (collapseDashes (sanitizeStep1 l))).reverse)
  have hrev : (List.dropWhile (· == '-')
        (List.dropWhile (· == '-') (collapseDashes (sanitizeStep1 l))).reverse).reverse
        ++ t.reverse
      = List.dropWhile (· == '-') (collapseDashes (sanitizeStep1 l)) := by
    have h2 := congrArg List.reverse ht
    rw [List.reverse_append, List.reverse_reverse] at h2
    exact h2
  have hmh := head?_of_pfx hrev h
  have hfalse := head?_dropWhile_ne hmh
  simp at hfalse

theorem getLast?_sanitizeList (l : List Char) :
    (sanitizeList l).getLast? ≠ some '-' := by
  intro h
  unfold sanitizeList trimDashes trimLeadDashes at h
  rw [List.getLast?_eq_head?_reverse, List.reverse_reverse] at h
  have := head?_dropWhile_ne h
  simp at this

/-- `sanitizeList` is the identity on its own outputs. -/
theorem sanitizeList_idem (l : List Char) :
    sanitizeList (sanitizeList l) = sanitizeList l := by
  have hchars := sanitizeList_chars l
  have hchain := chain'_sanitizeList l
  have hhead := head?_sanitizeList l
  have hlast := getLast?_sanitizeList l
  set y := sanitizeList l with hy
  have h1 : sanitizeStep1 y = y := by
    apply map_fix_eq_self
    intro c hc
    rw [if_pos (hchars c hc)]
  have h2 : collapseDashes y = y := collapseDashes_eq_self y hchain
  have h3 : trimLeadDashes y = y := by
    apply dropWhile_eq_self_of_head?
    intro c hc
    have : c ≠ '-' := fun he => hhead (he ▸ hc)
    simpa using this
  have h4 : y.reverse.dropWhile (· == '-') = y.reverse := by
    apply dropWhile_eq_self_of_head?
    intro c hc
    rw [List.head?_reverse] at hc
    have : c ≠ '-' := fun he => hlast (he ▸ hc)
    simpa using this
  show trimDashes (collapseDashes (sanitizeStep1 y)) = y
  rw [h1, h2]
  unfold trimDashes
  rw [h3, h4, List.reverse_reverse]

/-- C8: name sanitization is idempotent (`sanitize(sanitize(x)) = sanitize(x)`),
its output contains no run of two or more consecutive hyphen separators and no
leading or trailing separator, and `sanitize("-test---service-") = "test-service"`. -/
theorem C8_sanitizeName (x : String) :
    sanitizeName (sanitizeName x) = sanitizeName x ∧
    ¬ (['-', '-'] <:+: (sanitizeName x).data) ∧
    (sanitizeName x).data.head? ≠ some '-' ∧
    (sanitizeName x).data.getLast? ≠ some '-' ∧
    sanitizeName "-test---service-" = "test-service" := by
  refine ⟨?_, ?_, ?_, ?_, ?_⟩
  · show (⟨sanitizeList (sanitizeList x.data)⟩ : String) = ⟨sanitizeList x.data⟩
    rw [sanitizeList_idem]
  · rintro ⟨s, t, h⟩
    rw [List.append_assoc] at h
    have hsuf : List.Chain' noDD ('-' :: '-' :: t) :=
      (chain'_sanitizeList x.data).suffix
        ⟨s, show s ++ ('-' :: '-' :: t) = sanitizeList x.data from h⟩
    exact (List.chain'_cons.1 hsuf).1 ⟨rfl, rfl⟩
  · exact head?_sanitizeList x.data
  · exact getLast?_sanitizeList x.data
  · rfl

/-! ## Theorems: rule parser -/

theorem stripPfx_self_append : ∀ p l : List Char, stripPfx p (p ++ l) = some l := by
  intro p
  induction p with
  | nil => intro l; rfl
  | cons c ps ih =>
    intro l
    rw [List.cons_append, stripPfx, if_pos rfl]
    exact ih l

theorem matchFuncAt_shape (name ws1 v ws2 rest : List Char)
    (hws1 : ∀ c ∈ ws1, isSpaceGo c = true) (hws2 : ∀ c ∈ ws2, isSpaceGo c = true)
    (hv : v ≠ []) (hvb : btick ∉ v) :
    matchFuncAt name
      (name ++ '(' :: (ws1 ++ btick :: (v ++ btick :: (ws2 ++ ')' :: rest))))
      = some v := by
  have hA : stripPfx (name ++ ['('])
      (name ++ '(' :: (ws1 ++ btick :: (v ++ btick :: (ws2 ++ ')' :: rest))))
      = some (ws1 ++ btick :: (v ++ btick :: (ws2 ++ ')' :: rest))) := by
    rw [show name ++ '(' :: (ws1 ++ btick :: (v ++ btick :: (ws2 ++ ')' :: rest)))
        = (name ++ ['(']) ++ (ws1 ++ btick :: (v ++ btick :: (ws2 ++ ')' :: rest))) by
      simp]
    exact stripPfx_self_append _ _
  have hB : (ws1 ++ btick :: (v ++ btick :: (ws2 ++ ')' :: rest))).dropWhile isSpaceGo
      = btick :: (v ++ btick :: (ws2 ++ ')' :: rest)) := by
    rw [List.dropWhile_append_of_pos hws1, List.dropWhile_cons]
    simp [btick, isSpaceGo]
  have hD : (v ++ btick :: (ws2 ++ ')' :: rest)).takeWhile (fun c => c != btick) = v := by
    rw [List.takeWhile_append_of_pos, List.takeWhile_cons]
    · simp
    · intro a ha
      have hne : a ≠ btick := fun he => hvb (he ▸ ha)
      simpa using hne
  have hE : (v ++ btick :: (ws2 ++ ')' :: rest)).dropWhile (fun c => c != btick)
      = btick :: (ws2 ++ ')' :: rest) := by
    rw [List.dropWhile_append_of_pos, List.dropWhile_cons]
    · simp
    · intro a ha
      have hne : a ≠ btick := fun he => hvb (he ▸ ha)
      simpa using hne
  have hF : (ws2 ++ ')' :: rest).dropWhile isSpaceGo = ')' :: rest := by
    rw [List.dropWhile_append_of_pos hws2, List.dropWhile_cons]
    simp [isSpaceGo]
  have hBt : ∀ l : List Char, stripPfx [btick] (btick :: l) = some l := by
    intro l
    rw [stripPfx, if_pos rfl]
    rfl
  have hP : ∀ l : List Char, stripPfx [')'] (')' :: l) = some l := by
    intro l
    rw [stripPfx, if_pos rfl]
    rfl
  unfold matchFuncAt
  rw [hA]
  simp only [hB, hBt, hD, hE, hF, hP]
  rw [if_neg hv]

theorem findRule_of_matchFuncAt {name l : List Char} {v : List Char}
    (hname : name ≠ []) (h : matchFuncAt name l = some v) :
    findRule name l = some v := by
  cases l with
  | nil =>
    exfalso
    cases name with
    | nil => exact hname rfl
    | cons a b =>
      rw [matchFuncAt, show stripPfx ((a :: b) ++ ['(']) [] = none from rfl] at h
      cases h
  | cons c t =>
    rw [findRule, h]

theorem parseRule_of_findHost {rule v : List Char}
    (h : findRule "Host".data rule = some v) :
    parseRule rule = .ok ("host_matches".data, v) := by
  unfold parseRule
  rw [h]

theorem parseRule_of_findPathBeg {rule v : List Char}
    (h1 : findRule "Host".data rule = none)
    (h2 : findRule "PathPrefix".data rule = some v) :
    parseRule rule = .ok ("path_beg".data, v) := by
  unfold parseRule
  rw [h1, h2]

theorem parseRule_of_findPath {rule v : List Char}
    (h1 : findRule "Host".data rule = none)
    (h2 : findRule "PathPrefix".data rule = none)
    (h3 : findRule "Path".data rule = some v) :
    parseRule rule = .ok ("path".data, v) := by
  unfold parseRule
  rw [h1, h2, h3]

theorem parseRule_of_findNone {rule : List Char}
    (h1 : findRule "Host".data rule = none)
    (h2 : findRule "PathPrefix".data rule = none)
    (h3 : findRule "Path".data rule = none) :
    parseRule rule = .error ("unsupported rule format: ".data ++ rule) := by
  unfold parseRule
  rw [h1, h2, h3]

/-- C3: the rule parser tries Host, then PathPrefix, then Path, in this
fixed order, returning on the first match; `Host(BTICK v BTICK)` (optional
whitespace inside the parentheses) yields `(host_matches, v)`,
`PathPrefix(...)` yields `(path_beg, v)`, `Path(...)` yields `(path, v)`,
and a string in which none of the three patterns occurs yields the
"unsupported rule format" error. -/
theorem C3_parseRule_mapping :
    (∀ v ws1 ws2 rest : List Char, (∀ c ∈ ws1, isSpaceGo c = true) →
        (∀ c ∈ ws2, isSpaceGo c = true) → v ≠ [] → btick ∉ v →
        parseRule ("Host".data ++ '(' :: (ws1 ++ btick :: (v ++ btick :: (ws2 ++ ')' :: rest))))
          = .ok ("host_matches".data, v)) ∧
    (∀ v ws1 ws2 rest : List Char, (∀ c ∈ ws1, isSpaceGo c = true) →
        (∀ c ∈ ws2, isSpaceGo c = true) → v ≠ [] → btick ∉ v →
        findRule "Host".data
          ("PathPrefix".data ++ '(' :: (ws1 ++ btick :: (v ++ btick :: (ws2 ++ ')' :: rest)))) = none →
        parseRule ("PathPrefix".data ++ '(' :: (ws1 ++ btick :: (v ++ btick :: (ws2 ++ ')' :: rest))))
          = .ok ("path_beg".data, v)) ∧
    (∀ v ws1 ws2 rest : List Char, (∀ c ∈ ws1, isSpaceGo c = true) →
        (∀ c ∈ ws2, isSpaceGo c = true) → v ≠ [] → btick ∉ v →
        findRule "Host".data
          ("Path".data ++ '(' :: (ws1 ++ btick :: (v ++ btick :: (ws2 ++ ')' :: rest)))) = none →
        findRule "PathPrefix".data
          ("Path".data ++ '(' :: (ws1 ++ btick :: (v ++ btick :: (ws2 ++ ')' :: rest)))) = none →
        parseRule ("Path".data ++ '(' :: (ws1 ++ btick :: (v ++ btick :: (ws2 ++ ')' :: rest))))
          = .ok ("path".data, v)) ∧
    (∀ rule : List Char, findRule "Host".data rule = none →
        findRule "PathPrefix".data rule = none → findRule "Path".data rule = none →
        parseRule rule = .error ("unsupported rule format: ".data ++ rule)) ∧
    (∀ rule v : List Char, findRule "Host".data rule = some v →
        parseRule rule = .ok ("host_matches".data, v)) ∧
    parseRule "Host(`a.example.com`)".data = .ok ("host_matches".data, "a.example.com".data) ∧
    parseRule "PathPrefix(`/api`)".data = .ok ("path_beg".data, "/api".data) ∧
    parseRule "Path(`/api`)".data = .ok ("path".data, "/api".data) := by
  refine ⟨?_, ?_, ?_, ?_, ?_, ?_, ?_, ?_⟩
  · intro v ws1 ws2 rest hws1 hws2 hv hvb
    exact parseRule_of_findHost (findRule_of_matchFuncAt (by decide)
      (matchFuncAt_shape "Host".data ws1 v ws2 rest hws1 hws2 hv hvb))
  · intro v ws1 ws2 rest hws1 hws2 hv hvb hnone
    exact parseRule_of_findPathBeg hnone (findRule_of_matchFuncAt (by decide)
      (matchFuncAt_shape "PathPrefix".data ws1 v ws2 rest hws1 hws2 hv hvb))
  · intro v ws1 ws2 rest hws1 hws2 hv hvb hnone1 hnone2
    exact parseRule_of_findPath hnone1 hnone2 (findRule_of_matchFuncAt (by decide)
      (matchFuncAt_shape "Path".data ws1 v ws2 rest hws1 hws2 hv hvb))
  · intro rule h1 h2 h3
    exact parseRule_of_findNone h1 h2 h3
  · intro rule v h
    exact parseRule_of_findHost h
  · rfl
  · rfl
  · rfl

/-- Witness for C3 at concrete inputs. -/
theorem C3_parseRule_mapping_witness :
    parseRule ("Host".data ++ '(' ::
        ([] ++ btick :: ("a.example.com".data ++ btick :: ([] ++ ')' :: []))))
      = .ok ("host_matches".data, "a.example.com".data) ∧
    parseRule "unknown-rule".data
      = .error ("unsupported rule format: ".data ++ "unknown-rule".data) := by
  constructor
  · exact C3_parseRule_mapping.1 "a.example.com".data [] [] []
      (by simp) (by simp) (by decide) (by decide)
  · exact C3_parseRule_mapping.2.2.2.1 "unknown-rule".data rfl rfl rfl

/-- C4 counterexample: a compound rule expression combining two grammar
functions does not produce a parse error; the parser extracts the Host
sub-pattern by substring matching and succeeds. -/
theorem C4_compound_counterexample :
    parseRule "Host(`a.example.com`) && Path(`/api`)".data
      = .ok ("host_matches".data, "a.example.com".data) := by
  rfl

/-- C4 amended: a compound rule expression is not rejected; the parser
returns the (operator, value) pair of the first pattern it matches, in the
order Host, PathPrefix, Path, by substring extraction.  Only a string in
which none of the three patterns occurs yields a parse error. -/
theorem C4_compound_amended :
    (∀ u w : List Char, u ≠ [] → btick ∉ u →
        parseRule ("Host(`".data ++ u ++ ("`) && Path(`".data ++ w ++ "`)".data))
          = .ok ("host_matches".data, u)) ∧
    (∀ rule : List Char, findRule "Host".data rule = none →
        findRule "PathPrefix".data rule = none → findRule "Path".data rule = none →
        parseRule rule = .error ("unsupported rule format: ".data ++ rule)) := by
  constructor
  · intro u w hu hub
    have hshape : "Host(`".data ++ u ++ ("`) && Path(`".data ++ w ++ "`)".data)
        = "Host".data ++ '(' ::
            ([] ++ btick :: (u ++ btick :: ([] ++ ')' :: (" && Path(`".data ++ (w ++ "`)".data))))) := by
      simp only [btick, show "Host(`".data = "Host".data ++ ['(', '\x60'] from rfl,
        show "`) && Path(`".data = ['\x60', ')'] ++ " && Path(`".data from rfl,
        show "`)".data = ['\x60', ')'] from rfl,
        List.append_assoc, List.cons_append, List.nil_append]
    rw [hshape]
    exact parseRule_of_findHost (findRule_of_matchFuncAt (by decide)
      (matchFuncAt_shape "Host".data [] u []
        (" && Path(`".data ++ (w ++ "`)".data)) (by simp) (by simp) hu hub))
  · intro rule h1 h2 h3
    exact parseRule_of_findNone h1 h2 h3

/-- Witness for the amended C4 at a concrete compound rule. -/
theorem C4_compound_amended_witness :
    parseRule ("Host(`".data ++ "a.example.com".data ++
        ("`) && Path(`".data ++ "/api".data ++ "`)".data))
      = .ok ("host_matches".data, "a.example.com".data) := by
  exact C4_compound_amended.1 "a.example.com".data "/api".data (by decide) (by decide)

/-! ## Theorems: retry wrapper -/

theorem retryAux_stop {E : Type} (op : Nat → Option E) (n d attempt : Nat)
    (le : Option E) (sleeps : List Nat) (h : ¬ attempt < n) :
    retryAux op n d attempt le sleeps
      = { success := false, calls := attempt, sleeps := sleeps, lastErr := le } := by
  unfold retryAux
  rw [dif_neg h]

theorem retryAux_succ_step {E : Type} (op : Nat → Option E) (n d attempt : Nat)
    (le : Option E) (sleeps : List Nat) (h : attempt < n) (hop : op attempt = none) :
    retryAux op n d attempt le sleeps
      = { success := true, calls := attempt + 1,
          sleeps := if 0 < attempt then sleeps ++ [attempt * d] else sleeps,
          lastErr := none } := by
  unfold retryAux
  rw [dif_pos h]
  simp only [hop]

theorem retryAux_fail_step {E : Type} (op : Nat → Option E) (n d attempt : Nat)
    (le : Option E) (sleeps : List Nat) {e : E} (h : attempt < n)
    (hop : op attempt = some e) :
    retryAux op n d attempt le sleeps
      = retryAux op n d (attempt + 1) (some e)
          (if 0 < attempt then sleeps ++ [attempt * d] else sleeps) := by
  conv_lhs => rw [retryAux]
  rw [dif_pos h]
  simp only [hop]

theorem retryAux_calls_le {E : Type} (op : Nat → Option E) (n d : Nat) :
    ∀ attempt (le : Option E) (sleeps : List Nat), attempt ≤ n →
    (retryAux op n d attempt le sleeps).calls ≤ n := by
  suffices H : ∀ fuel attempt (le : Option E) (sleeps : List Nat), n - attempt ≤ fuel →
      attempt ≤ n → (retryAux op n d attempt le sleeps).calls ≤ n by
    intro attempt le sleeps h
    exact H n attempt le sleeps (by omega) h
  intro fuel
  induction fuel with
  | zero =>
    intro attempt le sleeps hk h
    rw [retryAux_stop op n d attempt le sleeps (by omega)]
    exact h
  | succ fuel ih =>
    intro attempt le sleeps hk h
    by_cases hlt : attempt < n
    · cases hop : op attempt with
      | none =>
        rw [retryAux_succ_step op n d attempt le sleeps hlt hop]
        exact hlt
      | some e =>
        rw [retryAux_fail_step op n d attempt le sleeps hlt hop]
        exact ih (attempt + 1) (some e) _ (by omega) (by omega)
    · rw [retryAux_stop op n d attempt le sleeps hlt]
      show attempt ≤ n
      exact h

theorem retryAux_all_fail {E : Type} (op : Nat → Option E) (n d : Nat) :
    ∀ attempt (le : Option E) (sleeps : List Nat), attempt ≤ n →
    (∀ j, attempt ≤ j → j < n → (op j).isSome) →
    (retryAux op n d attempt le sleeps).success = false ∧
    (retryAux op n d attempt le sleeps).calls = n ∧
    (retryAux op n d attempt le sleeps).lastErr
      = (if attempt < n then op (n - 1) else le) := by
  suffices H : ∀ fuel attempt (le : Option E) (sleeps : List Nat), n - attempt ≤ fuel →
      attempt ≤ n → (∀ j, attempt ≤ j → j < n → (op j).isSome) →
      (retryAux op n d attempt le sleeps).success = false ∧
      (retryAux op n d attempt le sleeps).calls = n ∧
      (retryAux op n d attempt le sleeps).lastErr
        = (if attempt < n then op (n - 1) else le) by
    intro attempt le sleeps h hall
    exact H n attempt le sleeps (by omega) h hall
  intro fuel
  induction fuel with
  | zero =>
    intro attempt le sleeps hk h hall
    rw [retryAux_stop op n d attempt le sleeps (by omega)]
    refine ⟨rfl, show attempt = n by omega, ?_⟩
    show le = if attempt < n then op (n - 1) else le
    rw [if_neg (by omega)]
  | succ fuel ih =>
    intro attempt le sleeps hk h hall
    by_cases hlt : attempt < n
    · obtain ⟨e, he⟩ := Option.isSome_iff_exists.1 (hall attempt le_rfl hlt)
      rw [retryAux_fail_step op n d attempt le sleeps hlt he]
      obtain ⟨hs, hc, hl⟩ := ih (attempt + 1) (some e) _ (by omega) (by omega)
        (fun j hj1 hj2 => hall j (by omega) hj2)
      refine ⟨hs, hc, ?_⟩
      rw [hl, if_pos hlt]
      by_cases hlt2 : attempt + 1 < n
      · rw [if_pos hlt2]
      · rw [if_neg hlt2, ← he]
        congr 1
        omega
    · rw [retryAux_stop op n d attempt le sleeps hlt]
      refine ⟨rfl, show attempt = n by omega, ?_⟩
      show le = if attempt < n then op (n - 1) else le
      rw [if_neg hlt]

theorem retryAux_succeeds_pos {E : Type} (op : Nat → Option E) (n d : Nat) :
    ∀ k attempt (le : Option E) (sleeps : List Nat), 1 ≤ attempt → attempt + k < n →
    (∀ j, attempt ≤ j → j < attempt + k → (op j).isSome) →
    op (attempt + k) = none →
    retryAux op n d attempt le sleeps =
      { success := true, calls := attempt + k + 1,
        sleeps := sleeps ++ (List.range (k + 1)).map (fun i => (attempt + i) * d),
        lastErr := none } := by
  intro k
  induction k with
  | zero =>
    intro attempt le sleeps h1 hlt hfail hok
    rw [retryAux_succ_step op n d attempt le sleeps (by omega) (by simpa using hok)]
    rw [if_pos (by omega)]
    rw [show List.range 1 = [0] from rfl]
    simp
  | succ k ih =>
    intro attempt le sleeps h1 hlt hfail hok
    obtain ⟨e, he⟩ := Option.isSome_iff_exists.1 (hfail attempt le_rfl (by omega))
    rw [retryAux_fail_step op n d attempt le sleeps (by omega) he]
    rw [if_pos (by omega)]
    rw [ih (attempt + 1) (some e) (sleeps ++ [attempt * d]) (by omega) (by omega)
      (fun j hj1 hj2 => hfail j (by omega) (by omega))
      (by rw [show attempt + 1 + k = attempt + (k + 1) by omega]; exact hok)]
    have hmap : (List.range (k + 1 + 1)).map (fun i => (attempt + i) * d)
        = attempt * d :: (List.range (k + 1)).map (fun i => (attempt + 1 + i) * d) := by
      rw [List.range_succ_eq_map, List.map_cons, List.map_map]
      refine congrArg (fun z => (attempt + 0) * d :: z) ?_
      apply List.map_congr_left
      intro i _
      show (attempt + (i + 1)) * d = (attempt + 1 + i) * d
      congr 1
      omega
    rw [hmap]
    rw [show attempt + 1 + k + 1 = attempt + (k + 1) + 1 from by omega, List.append_assoc]
    rfl

theorem retryOperation_succeeds {E : Type} (op : Nat → Option E) (n d k : Nat)
    (hk : k < n) (hfail : ∀ j, j < k → (op j).isSome) (hok : op k = none) :
    retryOperation op n d =
      { success := true, calls := k + 1,
        sleeps := (List.range k).map (fun i => (i + 1) * d), lastErr := none } := by
  unfold retryOperation
  cases k with
  | zero =>
    rw [retryAux_succ_step op n d 0 none [] (by omega) hok]
    rfl
  | succ k =>
    obtain ⟨e, he⟩ := Option.isSome_iff_exists.1 (hfail 0 (by omega))
    rw [retryAux_fail_step op n d 0 none [] (by omega) he]
    rw [if_neg (by omega)]
    rw [retryAux_succeeds_pos op n d k 1 (some e) [] le_rfl (by omega)
      (fun j hj1 hj2 => hfail j (by omega))
      (by rw [show 1 + k = k + 1 by omega]; exact hok)]
    have hmap : (List.range (k + 1)).map (fun i => (1 + i) * d)
        = (List.range (k + 1)).map (fun i => (i + 1) * d) := by
      apply List.map_congr_left
      intro i _
      congr 1
      omega
    rw [List.nil_append, hmap, show 1 + k = k + 1 from by omega]

/-- C2: the retry wrapper invokes the operation at most `N` times; a run
whose first success is the `(k+1)`-st invocation returns success after
exactly `k+1` invocations, having slept `(j-1)*D` before the `j`-th attempt
(1-indexed: the sleep list is `[1*D, ..., k*D]`, zero delay before the first
attempt); and when all `N` attempts fail it returns an error wrapping the
last attempt's error. -/
theorem C2_retryOperation {E : Type} (op : Nat → Option E) (n d : Nat) :
    ((retryOperation op n d).calls ≤ n) ∧
    (∀ k, k < n → (∀ j, j < k → (op j).isSome) → op k = none →
      retryOperation op n d =
        { success := true, calls := k + 1,
          sleeps := (List.range k).map (fun i => (i + 1) * d), lastErr := none }) ∧
    ((∀ j, j < n → (op j).isSome) →
      (retryOperation op n d).success = false ∧
      (retryOperation op n d).calls = n ∧
      (retryOperation op n d).lastErr = (if 0 < n then op (n - 1) else none)) := by
  refine ⟨?_, ?_, ?_⟩
  · exact retryAux_calls_le op n d 0 none [] (by omega)
  · intro k hk hfail hok
    exact retryOperation_succeeds op n d k hk hfail hok
  · intro hall
    obtain ⟨hs, hc, hl⟩ := retryAux_all_fail op n d 0 none [] (by omega)
      (fun j hj1 hj2 => hall j hj2)
    exact ⟨hs, hc, hl⟩

/-- Witness for C2: `N = 3`, `D = 5`, failures on attempts 1 and 2, success
on attempt 3: three invocations, sleeps `[5, 10]` (cumulative 15), success;
and with all attempts failing, the last error is surfaced. -/
theorem C2_retryOperation_witness :
    retryOperation (fun k => if k < 2 then some "boom" else none) 3 5
      = { success := true, calls := 3, sleeps := [5, 10], lastErr := none } ∧
    [5, 10].sum = 15 ∧
    (retryOperation (fun _ => some "boom") 3 5).success = false ∧
    (retryOperation (fun _ => some "boom") 3 5).lastErr = some "boom" := by
  refine ⟨?_, by decide, ?_, ?_⟩
  · have h := (C2_retryOperation (fun k => if k < 2 then some "boom" else none) 3 5).2.1
      2 (by omega) (fun j hj => by interval_cases j <;> rfl) rfl
    exact h
  · exact ((C2_retryOperation (fun _ => some "boom") 3 5).2.2
      (fun j _ => rfl)).1
  · have h := ((C2_retryOperation (fun _ => some "boom") 3 5).2.2
      (fun j _ => rfl)).2.2
    simpa using h

/-- C10: with a configured retry attempt count of zero the wrapper never
invokes the operation (zero calls), performs no sleeps, and returns failure
with a nil last error, so every wrapped remote call fails unconditionally. -/
theorem C10_retry_zero_attempts {E : Type} (op : Nat → Option E) (d : Nat) :
    retryOperation op 0 d
      = { success := false, calls := 0, sleeps := [], lastErr := none } := by
  unfold retryOperation
  exact retryAux_stop op 0 d 0 none [] (by omega)

/-! ## Theorems: metadata translator -/

theorem validateRequiredLabels_ok_inv {labels : Labels} {u : Unit}
    (h : validateRequiredLabels labels = .ok u) :
    getStringLabel labels ControllerBackendPortLabel "" ≠ "" ∧
    getStringLabel labels ControllerFrontendRuleLabel "" ≠ "" := by
  unfold validateRequiredLabels at h
  split at h
  · exact Except.noConfusion h
  · split at h
    · exact Except.noConfusion h
    · rename_i h1 h2
      exact ⟨h1, h2⟩

theorem configureHealthCheck_ok_fields {cfg : BackendConfig} {labels : Labels}
    {out : BackendConfig} (h : configureHealthCheck cfg labels = .ok out) :
    out.port = cfg.port ∧ out.address = cfg.address ∧ out.checkType = cfg.checkType ∧
    (toLowerStr cfg.checkType = "none" ∨ toLowerStr cfg.checkType = "basic" ∨
      toLowerStr cfg.checkType = "http") := by
  unfold configureHealthCheck at h
  split at h
  · rename_i h1
    injection h with h2
    subst h2
    exact ⟨rfl, rfl, rfl, Or.inl h1⟩
  · split at h
    · rename_i h1 h2
      injection h with h3
      subst h3
      exact ⟨rfl, rfl, rfl, Or.inr (Or.inl h2)⟩
    · split at h
      · rename_i h1 h2 h3
        try simp only [] at h
        split at h
        · exact Except.noConfusion h
        · injection h with h5
          subst h5
          exact ⟨rfl, rfl, rfl, Or.inr (Or.inr h3)⟩
      · exact Except.noConfusion h

theorem parseControllerBackendConfig_ok_inv {info : ContainerInfo} {labels : Labels}
    {bc : BackendConfig} (h : parseControllerBackendConfig info labels = .ok bc) :
    goAtoi? (getStringLabel labels ControllerBackendPortLabel "") ≠ none ∧
    GetContainerIP info ≠ "" ∧
    (toLowerStr (getStringLabel labels ControllerBackendCheckTypeLabel "basic") = "none" ∨
     toLowerStr (getStringLabel labels ControllerBackendCheckTypeLabel "basic") = "basic" ∨
     toLowerStr (getStringLabel labels ControllerBackendCheckTypeLabel "basic") = "http") := by
  unfold parseControllerBackendConfig at h
  try simp only [] at h
  split at h
  · exact Except.noConfusion h
  · split at h
    · exact Except.noConfusion h
    · rename_i hport hatoi
      try simp only [] at h
      split at h
      · exact Except.noConfusion h
      · rename_i haddr
        try simp only [] at h
        split at h
        · exact Except.noConfusion h
        · rename_i cfg2 hchc
          have hf := configureHealthCheck_ok_fields hchc
          refine ⟨?_, haddr, hf.2.2.2⟩
          intro hnone
          exact hatoi (by rw [hnone]; rfl)

theorem parseControllerFrontendConfig_ok_inv {labels : Labels} {fc : FrontendConfig}
    (h : parseControllerFrontendConfig labels = .ok fc) :
    getStringLabel labels ControllerFrontendRuleLabel "" ≠ "" ∧
    fc.rule = getStringLabel labels ControllerFrontendRuleLabel "" := by
  unfold parseControllerFrontendConfig at h
  try simp only [] at h
  split at h
  · exact Except.noConfusion h
  · rename_i hrule
    injection h with h2
    subst h2
    exact ⟨hrule, rfl⟩

theorem parseControllerLabels_ok_inv {info : ContainerInfo} {labels : Labels}
    {cfg : ContainerConfig} (h : parseControllerLabels info labels = .ok cfg) :
    getLabel labels ControllerEnableLabel = some TrueValue ∧
    getStringLabel labels ControllerBackendPortLabel "" ≠ "" ∧
    goAtoi? (getStringLabel labels ControllerBackendPortLabel "") ≠ none ∧
    GetContainerIP info ≠ "" ∧
    (toLowerStr (getStringLabel labels ControllerBackendCheckTypeLabel "basic") = "none" ∨
     toLowerStr (getStringLabel labels ControllerBackendCheckTypeLabel "basic") = "basic" ∨
     toLowerStr (getStringLabel labels ControllerBackendCheckTypeLabel "basic") = "http") ∧
    getStringLabel labels ControllerFrontendRuleLabel "" ≠ "" ∧
    cfg.frontendConfig.rule = getStringLabel labels ControllerFrontendRuleLabel "" ∧
    cfg.endpointName = getStringLabel labels ControllerEndpointLabel "default" := by
  unfold parseControllerLabels at h
  split at h
  · exact Except.noConfusion h
  · rename_i hen
    split at h
    · exact Except.noConfusion h
    · rename_i u hval
      try simp only [] at h
      split at h
      · exact Except.noConfusion h
      · rename_i bc hbc
        split at h
        · exact Except.noConfusion h
        · rename_i fc hfc
          try simp only [] at h
          split at h
          · exact Except.noConfusion h
          · injection h with h2
            subst h2
            obtain ⟨hp, hr⟩ := validateRequiredLabels_ok_inv hval
            obtain ⟨hatoi, haddr, hct⟩ := parseControllerBackendConfig_ok_inv hbc
            obtain ⟨_, hfcr⟩ := parseControllerFrontendConfig_ok_inv hfc
            exact ⟨not_not.1 hen, hp, hatoi, haddr, hct, hr, hfcr, rfl⟩

/-- C6: for every backend configuration, check type `none` or `basic` leaves
the health-check path, method and version fields empty; check type `http`
with an empty health-check path label fails with the error citing the
missing path; with a non-empty path it sets the method from the label
(default `OPTIONS`) and synthesizes a version string embedding the backend
address as a Host header hint; any other (lowercased) value fails with an
error naming that value. -/
theorem C6_configureHealthCheck (cfg : BackendConfig) (labels : Labels) :
    ((cfg.checkType = "none" ∨ cfg.checkType = "basic") →
      configureHealthCheck cfg labels =
        .ok { cfg with healthCheckPath := "", healthCheckMethod := "",
                       healthCheckVersion := "" }) ∧
    (cfg.checkType = "http" →
      getStringLabel labels ControllerBackendHealthCheckLabel "" = "" →
      configureHealthCheck cfg labels =
        .error "health check path is required for HTTP check type (pfsense-controller.backend.health_check_path)") ∧
    (cfg.checkType = "http" →
      getStringLabel labels ControllerBackendHealthCheckLabel "" ≠ "" →
      configureHealthCheck cfg labels =
        .ok { cfg with
              healthCheckPath := getStringLabel labels ControllerBackendHealthCheckLabel "",
              healthCheckMethod := getStringLabel labels ControllerBackendHealthMethodLabel "OPTIONS",
              healthCheckVersion := "HTTP/1.1\\r\\nHost:\\ " ++ cfg.address }) ∧
    (toLowerStr cfg.checkType ≠ "none" → toLowerStr cfg.checkType ≠ "basic" →
      toLowerStr cfg.checkType ≠ "http" →
      configureHealthCheck cfg labels =
        .error ("invalid check type \x27" ++ cfg.checkType ++
          "\x27, must be one of: none, basic, http")) := by
  refine ⟨?_, ?_, ?_, ?_⟩
  · rintro (h | h) <;>
      · unfold configureHealthCheck
        rw [h]
        first
          | rw [if_pos (show toLowerStr "none" = "none" from rfl)]
          | rw [if_neg (by decide), if_pos (show toLowerStr "basic" = "basic" from rfl)]
  · intro h hpath
    unfold configureHealthCheck
    rw [h]
    rw [if_neg (by decide), if_neg (by decide),
      if_pos (show toLowerStr "http" = "http" from rfl)]
    simp only []
    rw [if_pos hpath]
  · intro h hpath
    unfold configureHealthCheck
    rw [h]
    rw [if_neg (by decide), if_neg (by decide),
      if_pos (show toLowerStr "http" = "http" from rfl)]
    simp only []
    rw [if_neg hpath]
  · intro h1 h2 h3
    unfold configureHealthCheck
    rw [if_neg h1, if_neg h2, if_neg h3]

/-- Witness for C6 at concrete configurations. -/
theorem C6_configureHealthCheck_witness :
    configureHealthCheck { checkType := "basic", address := "10.0.0.2" } [] =
      .ok { checkType := "basic", address := "10.0.0.2" } ∧
    configureHealthCheck { checkType := "http", address := "10.0.0.2" } [] =
      .error "health check path is required for HTTP check type (pfsense-controller.backend.health_check_path)" ∧
    configureHealthCheck { checkType := "http", address := "10.0.0.2" }
        [(ControllerBackendHealthCheckLabel, "/health")] =
      .ok { checkType := "http", address := "10.0.0.2", healthCheckPath := "/health",
            healthCheckMethod := "OPTIONS",
            healthCheckVersion := "HTTP/1.1\\r\\nHost:\\ 10.0.0.2" } ∧
    configureHealthCheck { checkType := "weird" } [] =
      .error "invalid check type \x27weird\x27, must be one of: none, basic, http" := by
  refine ⟨?_, ?_, ?_, ?_⟩
  · exact (C6_configureHealthCheck _ _).1 (Or.inr rfl)
  · exact (C6_configureHealthCheck _ _).2.1 rfl rfl
  · exact (C6_configureHealthCheck _ _).2.2.1 rfl (by decide)
  · exact (C6_configureHealthCheck _ _).2.2.2 (by decide) (by decide) (by decide)

theorem parseTraefikLabels_ok_endpoint {info : ContainerInfo} {labels : Labels}
    {cfg : ContainerConfig} (h : parseTraefikLabels info labels = .ok cfg) :
    cfg.endpointName = "default" := by
  unfold parseTraefikLabels at h
  split at h
  · exact Except.noConfusion h
  · split at h
    · exact Except.noConfusion h
    · split at h
      · exact Except.noConfusion h
      · split at h
        · exact Except.noConfusion h
        · try simp only [] at h
          split at h
          · exact Except.noConfusion h
          · injection h with h2
            subst h2
            rfl

/-- C9: in Traefik compatibility mode the endpoint-selection label is
ignored: every configuration produced by the Traefik path carries the
constant endpoint name "default", whereas the native (controller) path
takes the endpoint from the `pfsense-controller.endpoint` label (with
default "default"); hence a container parsed in traefik mode ends at the
default endpoint regardless of its endpoint label. -/
theorem C9_traefik_ignores_endpoint_label (info : ContainerInfo) (labels : Labels) :
    (∀ cfg, parseTraefikLabels info labels = .ok cfg → cfg.endpointName = "default") ∧
    (∀ cfg, parseControllerLabels info labels = .ok cfg →
      cfg.endpointName = getStringLabel labels ControllerEndpointLabel "default") ∧
    (∀ cfg, ParseContainer true info labels = .ok cfg → cfg.parseMode = "traefik" →
      cfg.endpointName = "default") := by
  refine ⟨fun cfg h => parseTraefikLabels_ok_endpoint h,
    fun cfg h => (parseControllerLabels_ok_inv h).2.2.2.2.2.2.2, ?_⟩
  intro cfg h hmode
  unfold ParseContainer at h
  split at h
  · injection h with h2
    rw [← h2] at hmode
    simp at hmode
  · rw [if_pos rfl] at h
    split at h
    · rename_i c hc
      injection h with h2
      have he := parseTraefikLabels_ok_endpoint hc
      rw [← h2]
      exact he
    · exact Except.noConfusion h

/-- Witness for C9: the parser-test traefik container with an explicit
endpoint label `staging` still parses (in traefik mode) to endpoint
"default". -/
theorem C9_traefik_ignores_endpoint_label_witness :
    (ParseContainer true exInfo exTraefikLabels).toOption.map
      (fun c => (c.parseMode, c.endpointName)) = some ("traefik", "default") := by
  cases hh : ParseContainer true exInfo exTraefikLabels with
  | error e =>
    have hok : isOkE (ParseContainer true exInfo exTraefikLabels) = true := rfl
    rw [hh] at hok
    exact Bool.noConfusion hok
  | ok c =>
    have hmode : c.parseMode = "traefik" := by
      have h2 : (ParseContainer true exInfo exTraefikLabels).toOption.map
          ContainerConfig.parseMode = some "traefik" := rfl
      rw [hh] at h2
      simpa [Except.toOption] using h2
    have hend := (C9_traefik_ignores_endpoint_label exInfo exTraefikLabels).2.2 c hh hmode
    simp [Except.toOption, hmode, hend]

/-- C5 counterexample: a frontend rule that the rule parser rejects does
not make native-schema translation fail; translation succeeds for a
container whose rule is unparsable, because validation only checks that
the rule is non-empty and never parses it. -/
theorem C5_counterexample :
    parseRule "NotARule".data = .error ("unsupported rule format: ".data ++ "NotARule".data) ∧
    isOkE (parseControllerLabels exInfo exBadRuleLabels) = true := by
  exact ⟨rfl, rfl⟩

/-- C5 amended: native-schema translation fails on a missing or false
enable flag, a missing backend port, an invalid port, an unset container
address, and an invalid check type — but a frontend rule that fails to
parse does not fail translation: validation only requires the rule to be
non-empty, and the parse error surfaces later, when the frontend object is
built during sync. -/
theorem C5_translation_failures (info : ContainerInfo) (labels : Labels) :
    (getLabel labels ControllerEnableLabel ≠ some TrueValue →
      isOkE (parseControllerLabels info labels) = false) ∧
    (getStringLabel labels ControllerBackendPortLabel "" = "" →
      isOkE (parseControllerLabels info labels) = false) ∧
    (goAtoi? (getStringLabel labels ControllerBackendPortLabel "") = none →
      isOkE (parseControllerLabels info labels) = false) ∧
    (GetContainerIP info = "" → isOkE (parseControllerLabels info labels) = false) ∧
    (toLowerStr (getStringLabel labels ControllerBackendCheckTypeLabel "basic") ≠ "none" →
     toLowerStr (getStringLabel labels ControllerBackendCheckTypeLabel "basic") ≠ "basic" →
     toLowerStr (getStringLabel labels ControllerBackendCheckTypeLabel "basic") ≠ "http" →
      isOkE (parseControllerLabels info labels) = false) ∧
    (∀ cfg, parseControllerLabels info labels = .ok cfg → cfg.frontendConfig.rule ≠ "") ∧
    (∀ cfg, parseControllerLabels info labels = .ok cfg →
      isOkE (parseRule cfg.frontendConfig.rule.data) = false →
      isOkE (ConvertToHAProxyFrontend cfg) = false) ∧
    isOkE (parseControllerLabels exInfo exBadRuleLabels) = true ∧
    isOkE (parseRule "NotARule".data) = false := by
  refine ⟨?_, ?_, ?_, ?_, ?_, ?_, ?_, rfl, rfl⟩
  · intro hx
    cases hc : parseControllerLabels info labels with
    | error e => rfl
    | ok c => exact absurd (parseControllerLabels_ok_inv hc).1 hx
  · intro hx
    cases hc : parseControllerLabels info labels with
    | error e => rfl
    | ok c => exact absurd hx (parseControllerLabels_ok_inv hc).2.1
  · intro hx
    cases hc : parseControllerLabels info labels with
    | error e => rfl
    | ok c => exact absurd hx (parseControllerLabels_ok_inv hc).2.2.1
  · intro hx
    cases hc : parseControllerLabels info labels with
    | error e => rfl
    | ok c => exact absurd hx (parseControllerLabels_ok_inv hc).2.2.2.1
  · intro h1 h2 h3
    cases hc : parseControllerLabels info labels with
    | error e => rfl
    | ok c =>
      rcases (parseControllerLabels_ok_inv hc).2.2.2.2.1 with hd | hd | hd
      · exact absurd hd h1
      · exact absurd hd h2
      · exact absurd hd h3
  · intro cfg hc
    rw [(parseControllerLabels_ok_inv hc).2.2.2.2.2.2.1]
    exact (parseControllerLabels_ok_inv hc).2.2.2.2.2.1
  · intro cfg _ hbad
    unfold ConvertToHAProxyFrontend
    cases hp : parseRule cfg.frontendConfig.rule.data with
    | error e => rfl
    | ok p =>
      rw [hp] at hbad
      exact absurd hbad (by simp [isOkE])

/-- Witness for the amended C5 at concrete inputs: a container with no
labels fails translation (enable flag absent); a non-numeric port fails
translation. -/
theorem C5_translation_failures_witness :
    isOkE (parseControllerLabels ⟨"c", []⟩ []) = false ∧
    isOkE (parseControllerLabels exInfo
      [(ControllerEnableLabel, "true"), (ControllerBackendPortLabel, "x80"),
       (ControllerFrontendRuleLabel, "Host(`a.com`)")]) = false := by
  constructor
  · exact (C5_translation_failures ⟨"c", []⟩ []).1 (by decide)
  · exact (C5_translation_failures exInfo _).2.2.1 rfl

/-! ## Theorems: reconciler -/

/-- C7: reconciling a backend whose name already exists remotely issues one
update (PATCH) carrying the existing remote object's identifier — never a
create — and applying it leaves the number of remote backends unchanged; a
create (POST) is issued exactly when no backend with that name exists. -/
theorem C7_syncBackend_create_vs_update (s : RemoteState) (config : ContainerConfig) :
    (∀ ex, FindBackendByName s (ConvertToHAProxyBackend config).name = some ex →
      syncBackend s config
        = [ApiCall.updateBackend { ConvertToHAProxyBackend config with id := ex.id }] ∧
      (∀ b, ApiCall.createBackend b ∉ syncBackend s config) ∧
      (applyCalls s (syncBackend s config)).backends.length = s.backends.length) ∧
    (FindBackendByName s (ConvertToHAProxyBackend config).name = none →
      syncBackend s config = [ApiCall.createBackend (ConvertToHAProxyBackend config)]) := by
  constructor
  · intro ex hex
    have hsb : syncBackend s config
        = [ApiCall.updateBackend { ConvertToHAProxyBackend config with id := ex.id }] := by
      unfold syncBackend
      simp only []
      rw [hex]
    refine ⟨hsb, ?_, ?_⟩
    · intro b hb
      rw [hsb] at hb
      simp at hb
    · rw [hsb]
      unfold applyCalls
      rw [List.foldl_cons, List.foldl_nil]
      simp [applyCall]
  · intro hnone
    unfold syncBackend
    simp only []
    rw [hnone]

/-- Witness for C7: a remote state holding a backend named `web-backend`
with id 7 leads to an update carrying id 7; an empty remote state leads to
a create. -/
theorem C7_syncBackend_create_vs_update_witness :
    syncBackend ⟨[{ name := "web-backend", id := 7 }], [], 8⟩
        { backendConfig := { name := "web-backend" }, frontendConfig := {} }
      = [ApiCall.updateBackend
          { ConvertToHAProxyBackend
              { backendConfig := { name := "web-backend" }, frontendConfig := {} }
            with id := 7 }] ∧
    syncBackend ⟨[], [], 1⟩
        { backendConfig := { name := "web-backend" }, frontendConfig := {} }
      = [ApiCall.createBackend (ConvertToHAProxyBackend
          { backendConfig := { name := "web-backend" }, frontendConfig := {} })] := by
  constructor
  · exact ((C7_syncBackend_create_vs_update ⟨[{ name := "web-backend", id := 7 }], [], 8⟩
      { backendConfig := { name := "web-backend" }, frontendConfig := {} }).1
      { name := "web-backend", id := 7 } rfl).1
  · exact (C7_syncBackend_create_vs_update ⟨[], [], 1⟩
      { backendConfig := { name := "web-backend" }, frontendConfig := {} }).2 rfl

theorem ConvertToHAProxyFrontend_ok {config : ContainerConfig} {expr val : List Char}
    (hpr : parseRule config.frontendConfig.rule.data = .ok (expr, val)) :
    ConvertToHAProxyFrontend config = .ok
      { name := config.frontendConfig.name,
        haACLs := [⟨config.frontendConfig.aclName, (⟨expr⟩ : String), (⟨val⟩ : String), 0⟩],
        actionItems := [⟨"use_backend", config.frontendConfig.aclName,
          config.backendConfig.name, 0⟩],
        id := 0 } := by
  unfold ConvertToHAProxyFrontend
  rw [hpr]

theorem syncFrontend_existing {s : RemoteState} {config : ContainerConfig}
    {ex : HAProxyFrontend} {expr val : List Char}
    (hpr : parseRule config.frontendConfig.rule.data = .ok (expr, val))
    (hex : FindFrontendByName s config.frontendConfig.name = some ex) :
    syncFrontend s config = .ok
      [ApiCall.addACL ex.id
        ⟨config.frontendConfig.aclName, (⟨expr⟩ : String), (⟨val⟩ : String), 0⟩,
       ApiCall.addAction ex.id
        ⟨"use_backend", config.frontendConfig.aclName, config.backendConfig.name, 0⟩] := by
  unfold syncFrontend
  rw [ConvertToHAProxyFrontend_ok hpr]
  simp only [hex]

theorem syncFrontend_new {s : RemoteState} {config : ContainerConfig}
    {expr val : List Char}
    (hpr : parseRule config.frontendConfig.rule.data = .ok (expr, val))
    (hnone : FindFrontendByName s config.frontendConfig.name = none) :
    syncFrontend s config = .ok
      [ApiCall.createFrontend
        { name := config.frontendConfig.name,
          haACLs := [⟨config.frontendConfig.aclName, (⟨expr⟩ : String), (⟨val⟩ : String), 0⟩],
          actionItems := [⟨"use_backend", config.frontendConfig.aclName,
            config.backendConfig.name, 0⟩],
          id := 0 }] := by
  unfold syncFrontend
  rw [ConvertToHAProxyFrontend_ok hpr]
  simp only [hnone]

theorem applyCalls_addPair (s : RemoteState) (pid : Int) (acl : HAProxyACL)
    (act : HAProxyAction) :
    applyCalls s [ApiCall.addACL pid acl, ApiCall.addAction pid act]
      = { s with frontends := s.frontends.map (fun f =>
          if f.id == pid then
            { f with haACLs := f.haACLs ++ [acl], actionItems := f.actionItems ++ [act] }
          else f) } := by
  show applyCall (applyCall s (ApiCall.addACL pid acl)) (ApiCall.addAction pid act) = _
  simp only [applyCall, List.map_map]
  refine congrArg (fun z => { s with frontends := z }) ?_
  apply List.map_congr_left
  intro f _
  show (fun f => if f.id == pid then { f with actionItems := f.actionItems ++ [act] } else f)
      (if f.id == pid then { f with haACLs := f.haACLs ++ [acl] } else f) = _
  cases hid : f.id == pid <;> simp [hid]

/-- C1: when a frontend with the desired name already exists remotely,
syncing appends the container's ACL and `use_backend` action through the
add-ACL / add-action sub-resource calls against the existing frontend's id,
never creating a second frontend and never replacing existing rules (they
are appended after the existing lists); consequently, reconciling two
containers that declare the same frontend name with different rules, from a
state with no frontend of that name, yields exactly one remote frontend
with that name, carrying both ACLs and both actions. -/
theorem C1_frontend_sharing_merge :
    (∀ (s : RemoteState) (config : ContainerConfig) (ex : HAProxyFrontend)
        (expr val : List Char),
      parseRule config.frontendConfig.rule.data = .ok (expr, val) →
      FindFrontendByName s config.frontendConfig.name = some ex →
      ∀ calls, syncFrontend s config = .ok calls →
        (∀ f, ApiCall.createFrontend f ∉ calls) ∧
        calls = [ApiCall.addACL ex.id
            ⟨config.frontendConfig.aclName, (⟨expr⟩ : String), (⟨val⟩ : String), 0⟩,
          ApiCall.addAction ex.id
            ⟨"use_backend", config.frontendConfig.aclName, config.backendConfig.name, 0⟩] ∧
        (applyCalls s calls).frontends = s.frontends.map (fun f =>
          if f.id == ex.id then
            { f with
              haACLs := f.haACLs ++
                [⟨config.frontendConfig.aclName, (⟨expr⟩ : String), (⟨val⟩ : String), 0⟩],
              actionItems := f.actionItems ++
                [⟨"use_backend", config.frontendConfig.aclName,
                  config.backendConfig.name, 0⟩] }
          else f)) ∧
    (∀ (s : RemoteState) (cfgA cfgB : ContainerConfig) (n : String)
        (exprA valA exprB valB : List Char),
      cfgA.frontendConfig.name = n → cfgB.frontendConfig.name = n →
      parseRule cfgA.frontendConfig.rule.data = .ok (exprA, valA) →
      parseRule cfgB.frontendConfig.rule.data = .ok (exprB, valB) →
      FindFrontendByName s n = none →
      ∀ calls1 calls2,
        syncFrontend s cfgA = .ok calls1 →
        syncFrontend (applyCalls s calls1) cfgB = .ok calls2 →
        ((applyCalls (applyCalls s calls1) calls2).frontends.filter
            (fun f => f.name == n))
          = [{ name := n,
               haACLs := [⟨cfgA.frontendConfig.aclName, (⟨exprA⟩ : String), (⟨valA⟩ : String), 0⟩,
                          ⟨cfgB.frontendConfig.aclName, (⟨exprB⟩ : String), (⟨valB⟩ : String), 0⟩],
               actionItems := [⟨"use_backend", cfgA.frontendConfig.aclName,
                                cfgA.backendConfig.name, 0⟩,
                               ⟨"use_backend", cfgB.frontendConfig.aclName,
                                cfgB.backendConfig.name, 0⟩],
               id := s.nextId }]) := by
  constructor
  · intro s config ex expr val hpr hex calls hcalls
    rw [syncFrontend_existing hpr hex] at hcalls
    injection hcalls with hcalls
    subst hcalls
    refine ⟨by simp, rfl, ?_⟩
    rw [applyCalls_addPair]
  · intro s cfgA cfgB n exprA valA exprB valB hnA hnB hprA hprB hnone calls1 calls2 h1 h2
    have hnone' : FindFrontendByName s cfgA.frontendConfig.name = none := by
      rw [hnA]; exact hnone
    rw [syncFrontend_new hprA hnone'] at h1
    injection h1 with h1
    subst h1
    set feA' : HAProxyFrontend :=
      { name := cfgA.frontendConfig.name,
        haACLs := [⟨cfgA.frontendConfig.aclName, (⟨exprA⟩ : String), (⟨valA⟩ : String), 0⟩],
        actionItems := [⟨"use_backend", cfgA.frontendConfig.aclName,
          cfgA.backendConfig.name, 0⟩],
        id := s.nextId } with hfeA
    have hs1 : applyCalls s [ApiCall.createFrontend
        { name := cfgA.frontendConfig.name,
          haACLs := [⟨cfgA.frontendConfig.aclName, (⟨exprA⟩ : String), (⟨valA⟩ : String), 0⟩],
          actionItems := [⟨"use_backend", cfgA.frontendConfig.aclName,
            cfgA.backendConfig.name, 0⟩],
          id := 0 }]
        = { s with frontends := s.frontends ++ [feA'], nextId := s.nextId + 1 } := by
      unfold applyCalls
      rw [List.foldl_cons, List.foldl_nil]
      simp only [applyCall, hfeA]
    rw [hs1] at h2 ⊢
    have hfind1 : FindFrontendByName
        { s with frontends := s.frontends ++ [feA'], nextId := s.nextId + 1 }
        cfgB.frontendConfig.name = some feA' := by
      unfold FindFrontendByName
      show (s.frontends ++ [feA']).find? (fun f => f.name == cfgB.frontendConfig.name)
        = some feA'
      rw [List.find?_append]
      have hn0 : s.frontends.find? (fun f => f.name == cfgB.frontendConfig.name) = none := by
        rw [hnB]
        exact hnone
      rw [hn0]
      simp [hfeA, hnA, hnB]
    rw [syncFrontend_existing hprB hfind1] at h2
    injection h2 with h2
    subst h2
    rw [applyCalls_addPair]
    show ((s.frontends ++ [feA']).map _).filter _ = _
    rw [List.map_append, List.filter_append]
    have hleft : (s.frontends.map (fun f =>
        if f.id == feA'.id then
          { f with
            haACLs := f.haACLs ++
              [⟨cfgB.frontendConfig.aclName, (⟨exprB⟩ : String), (⟨valB⟩ : String), 0⟩],
            actionItems := f.actionItems ++
              [⟨"use_backend", cfgB.frontendConfig.aclName, cfgB.backendConfig.name, 0⟩] }
        else f)).filter (fun f => f.name == n) = [] := by
      rw [List.filter_eq_nil_iff]
      intro x hx
      rw [List.mem_map] at hx
      obtain ⟨f, hf, hgf⟩ := hx
      have hfn : x.name = f.name := by
        rw [← hgf]
        cases hid : f.id == feA'.id <;> simp [hid]
      have hnotn : ¬ (f.name == n) = true := by
        have := List.find?_eq_none.1 (show s.frontends.find? (fun f => f.name == n) = none
          from hnone) f hf
        simpa using this
      simp only [hfn]
      exact hnotn
    rw [hleft]
    have hright : ([feA'].map (fun f =>
        if f.id == feA'.id then
          { f with
            haACLs := f.haACLs ++
              [⟨cfgB.frontendConfig.aclName, (⟨exprB⟩ : String), (⟨valB⟩ : String), 0⟩],
            actionItems := f.actionItems ++
              [⟨"use_backend", cfgB.frontendConfig.aclName, cfgB.backendConfig.name, 0⟩] }
        else f)).filter (fun f => f.name == n)
        = [{ name := n,
             haACLs := [⟨cfgA.frontendConfig.aclName, (⟨exprA⟩ : String), (⟨valA⟩ : String), 0⟩,
                        ⟨cfgB.frontendConfig.aclName, (⟨exprB⟩ : String), (⟨valB⟩ : String), 0⟩],
             actionItems := [⟨"use_backend", cfgA.frontendConfig.aclName,
                              cfgA.backendConfig.name, 0⟩,
                             ⟨"use_backend", cfgB.frontendConfig.aclName,
                              cfgB.backendConfig.name, 0⟩],
             id := s.nextId }] := by
      simp only [List.map_cons, List.map_nil]
      rw [if_pos (by simp)]
      simp [hfeA, hnA, List.filter]
    rw [List.nil_append]
    exact hright

/-- Witness for C1: from an empty remote state, syncing container A
(frontend `shared`, Host rule) and then container B (same frontend name,
Path rule) yields exactly one frontend named `shared` carrying both
ACL/action pairs. -/
theorem C1_frontend_sharing_merge_witness :
    ∃ calls1 calls2 : List ApiCall,
      syncFrontend ⟨[], [], 1⟩
        { backendConfig := { name := "a-backend" },
          frontendConfig := { name := "shared", rule := "Host(`a.com`)", aclName := "acl-a" } }
        = .ok calls1 ∧
      syncFrontend (applyCalls ⟨[], [], 1⟩ calls1)
        { backendConfig := { name := "b-backend" },
          frontendConfig := { name := "shared", rule := "Path(`/b`)", aclName := "acl-b" } }
        = .ok calls2 ∧
      ((applyCalls (applyCalls ⟨[], [], 1⟩ calls1) calls2).frontends.filter
          (fun f => f.name == "shared"))
        = [{ name := "shared",
             haACLs := [⟨"acl-a", "host_matches", "a.com", 0⟩,
                        ⟨"acl-b", "path", "/b", 0⟩],
             actionItems := [⟨"use_backend", "acl-a", "a-backend", 0⟩,
                             ⟨"use_backend", "acl-b", "b-backend", 0⟩],
             id := 1 }] := by
  refine ⟨_, _, rfl, rfl, ?_⟩
  have h := C1_frontend_sharing_merge.2 ⟨[], [], 1⟩
    { backendConfig := { name := "a-backend" },
      frontendConfig := { name := "shared", rule := "Host(`a.com`)", aclName := "acl-a" } }
    { backendConfig := { name := "b-backend" },
      frontendConfig := { name := "shared", rule := "Path(`/b`)", aclName := "acl-b" } }
    "shared" "host_matches".data "a.com".data "path".data "/b".data
    rfl rfl rfl rfl rfl _ _ rfl rfl
  exact h

end PfCtl
